import Mathlib

/-!
Shallow embedding of the sudoku-rs gameboard core (src/gameboard.rs and the
event dispatch in src/main.rs).  Machine floats (f64) are modelled as exact
rationals; usize indices as Nat.  Array accesses that the Rust code performs
without bounds checks are modelled by total functions on Nat, and separate
checked variants (returning Option) model the panic branches of the Rust
indexing, for the safety claims.
-/

/-- One cell of the board: a digit (0 = empty) and nine note flags.
Mirrors struct Cell in src/gameboard.rs; the notes array [bool; 9] is a
function from the index, only indices below 9 are meaningful. -/
structure Cell where
  digit : Nat
  notes : Nat → Bool

/-- Default Cell: digit 0, all notes false (impl Default for Cell). -/
def Cell.deflt : Cell := { digit := 0, notes := fun _ => false }

/-- The game board: the 9x9 cell grid (row-major: first index is the row,
second the column, matching cells[ind[1]][ind[0]] in the source) and the
optional selected cell, stored as (x, y) = (column, row). -/
structure Gameboard where
  cells : Nat → Nat → Cell
  selected_cell : Option (Nat × Nat)

/-- Gameboard::new — fresh empty board, nothing selected. -/
def Gameboard.new : Gameboard :=
  { cells := fun _ _ => Cell.deflt, selected_cell := none }

/-- Gameboard::get_digit — digit of cells[ind[1]][ind[0]], None if 0. -/
def Gameboard.get_digit (g : Gameboard) (ind : Nat × Nat) : Option Nat :=
  let digit := (g.cells ind.2 ind.1).digit
  if digit = 0 then none else some digit

/-- Gameboard::get_notes — notes of cells[ind[1]][ind[0]]. -/
def Gameboard.get_notes (g : Gameboard) (ind : Nat × Nat) : Nat → Bool :=
  (g.cells ind.2 ind.1).notes

/-- Gameboard::set — overwrite the digit of cells[ind[1]][ind[0]]. -/
def Gameboard.set (g : Gameboard) (ind : Nat × Nat) (val : Nat) : Gameboard :=
  { g with cells := fun r c =>
      if r = ind.2 ∧ c = ind.1 then { g.cells r c with digit := val }
      else g.cells r c }

/-- Gameboard::note — flip note flag (val - 1) of cells[ind[1]][ind[0]]. -/
def Gameboard.note (g : Gameboard) (ind : Nat × Nat) (val : Nat) : Gameboard :=
  let i := val - 1
  { g with cells := fun r c =>
      if r = ind.2 ∧ c = ind.1 then
        { g.cells r c with notes := fun j =>
            if j = i then !((g.cells r c).notes j) else (g.cells r c).notes j }
      else g.cells r c }

/-- Checked model of the indexing in Gameboard::get_digit: the Rust
cells[ind[1]][ind[0]] panics when an index reaches 9; none models the
panic branch. -/
def Gameboard.get_digitChk (g : Gameboard) (ind : Nat × Nat) : Option (Option Nat) :=
  if ind.2 < 9 ∧ ind.1 < 9 then some (g.get_digit ind) else none

/-- Checked model of the indexing in Gameboard::get_notes. -/
def Gameboard.get_notesChk (g : Gameboard) (ind : Nat × Nat) : Option (Nat → Bool) :=
  if ind.2 < 9 ∧ ind.1 < 9 then some (g.get_notes ind) else none

/-- Checked model of the indexing in Gameboard::set. -/
def Gameboard.setChk (g : Gameboard) (ind : Nat × Nat) (val : Nat) : Option Gameboard :=
  if ind.2 < 9 ∧ ind.1 < 9 then some (g.set ind val) else none

/-- Checked model of Gameboard::note: besides the cell indexing, the u8
subtraction val - 1 panics (or wraps to an out-of-range note index) when
val = 0, and the notes[i] access panics when i reaches 9. -/
def Gameboard.noteChk (g : Gameboard) (ind : Nat × Nat) (val : Nat) : Option Gameboard :=
  if ind.2 < 9 ∧ ind.1 < 9 ∧ 1 ≤ val ∧ val - 1 < 9 then some (g.note ind val)
  else none

/-- The view settings fields the controller logic reads (position and size);
the color and font fields are presentation-only and carry no logic.
The struct name keeps the spelling of the source. -/
structure GameboardViewSettigs where
  position : ℚ × ℚ
  size : ℚ
deriving DecidableEq

/-- GameboardView — holds the settings. -/
structure GameboardView where
  settings : GameboardViewSettigs
deriving DecidableEq

/-- Keyboard keys the dispatch in handle_event distinguishes; other covers
every key matched by the catch-all arm. -/
inductive Key where
  | d1 | d2 | d3 | d4 | d5 | d6 | d7 | d8 | d9
  | escape | lshift | rshift | other
deriving DecidableEq

/-- Mouse buttons (piston MouseButton). -/
inductive MouseButton where
  | left | right | middle
deriving DecidableEq

/-- A piston Button: mouse or keyboard. -/
inductive PistonButton where
  | mouse (b : MouseButton)
  | keyboard (k : Key)
deriving DecidableEq

/-- The normalized event stream handle_event consumes: cursor move,
button press, button release. -/
inductive Event where
  | mouseCursor (pos : ℚ × ℚ)
  | press (b : PistonButton)
  | release (b : PistonButton)
deriving DecidableEq

/-- GameboardController — owns the board, the view, the tracked cursor
position and the shift flag. -/
structure GameboardController where
  gameboard : Gameboard
  gameboard_view : GameboardView
  cursor_pos : ℚ × ℚ
  shift_pressed : Bool

/-- GameboardController::new. -/
def GameboardController.new (g : Gameboard) (v : GameboardView) : GameboardController :=
  { gameboard := g, gameboard_view := v, cursor_pos := (0, 0), shift_pressed := false }

/-- One pass of the occurrence-set loop in GameboardController::check:
walks the digits of a group, failing on a digit already seen, and (when
rejectZero, the row passes) also on digit 0.  seen models the BTreeSet. -/
def scanDigits (rejectZero : Bool) (seen : List Nat) : List Nat → Bool
  | [] => true
  | d :: rest =>
      if (rejectZero = true ∧ d = 0) ∨ d ∈ seen then false
      else scanDigits rejectZero (d :: seen) rest

/-- GameboardController::check — the validator: rows are scanned rejecting
zeros and duplicates, then columns and 3x3 sections rejecting duplicates;
the three && model the early returns. -/
def GameboardController.check (self : GameboardController) : Bool :=
  let gameboard := self.gameboard
  ((List.range 9).all fun row =>
    scanDigits true [] ((List.range 9).map fun column =>
      (gameboard.cells row column).digit)) &&
  ((List.range 9).all fun column =>
    scanDigits false [] ((List.range 9).map fun row =>
      (gameboard.cells row column).digit)) &&
  ((List.range 9).all fun sect =>
    scanDigits false [] ((List.range 9).map fun i =>
      (gameboard.cells (sect / 3 * 3 + i / 3) (sect % 3 * 3 + i % 3)).digit))

/-- GameboardController::handle_event.  A piston event answers at most one
of mouse_cursor_args / press_args / release_args, so the sequential ifs of
the source become a match on the event kind.  The f64 cast (x / size * 9.0)
as usize is Int.toNat of the floor (the region guard makes the operand
nonnegative, where the Rust cast truncates toward zero). -/
def GameboardController.handle_event (self : GameboardController) (e : Event) :
    GameboardController :=
  let pos := self.gameboard_view.settings.position
  let size := self.gameboard_view.settings.size
  match e with
  | .mouseCursor p => { self with cursor_pos := p }
  | .press (.mouse .left) =>
      let x := self.cursor_pos.1 - pos.1
      let y := self.cursor_pos.2 - pos.2
      if 0 ≤ x ∧ x < size ∧ 0 ≤ y ∧ y < size then
        let cell_x := (⌊x / size * 9⌋).toNat
        let cell_y := (⌊y / size * 9⌋).toNat
        { self with gameboard :=
            { self.gameboard with selected_cell := some (cell_x, cell_y) } }
      else self
  | .press (.mouse _) => self
  | .press (.keyboard key) =>
      let self :=
        if key = Key.lshift then { self with shift_pressed := true } else self
      match self.gameboard.selected_cell with
      | none => self
      | some ind =>
          if self.shift_pressed then
            match key with
            | .d1 => { self with gameboard := self.gameboard.note ind 1 }
            | .d2 => { self with gameboard := self.gameboard.note ind 2 }
            | .d3 => { self with gameboard := self.gameboard.note ind 3 }
            | .d4 => { self with gameboard := self.gameboard.note ind 4 }
            | .d5 => { self with gameboard := self.gameboard.note ind 5 }
            | .d6 => { self with gameboard := self.gameboard.note ind 6 }
            | .d7 => { self with gameboard := self.gameboard.note ind 7 }
            | .d8 => { self with gameboard := self.gameboard.note ind 8 }
            | .d9 => { self with gameboard := self.gameboard.note ind 9 }
            | .escape => { self with gameboard := self.gameboard.set ind 0 }
            | _ => self
          else
            match key with
            | .d1 => { self with gameboard := self.gameboard.set ind 1 }
            | .d2 => { self with gameboard := self.gameboard.set ind 2 }
            | .d3 => { self with gameboard := self.gameboard.set ind 3 }
            | .d4 => { self with gameboard := self.gameboard.set ind 4 }
            | .d5 => { self with gameboard := self.gameboard.set ind 5 }
            | .d6 => { self with gameboard := self.gameboard.set ind 6 }
            | .d7 => { self with gameboard := self.gameboard.set ind 7 }
            | .d8 => { self with gameboard := self.gameboard.set ind 8 }
            | .d9 => { self with gameboard := self.gameboard.set ind 9 }
            | .escape => { self with gameboard := self.gameboard.set ind 0 }
            | _ => self
  | .release (.keyboard key) =>
      if key = Key.lshift then { self with shift_pressed := false } else self
  | .release (.mouse _) => self

/-- The digit value a dispatched key carries: D1..D9 map to 1..9. -/
def keyToDigit : Key → Option Nat
  | .d1 => some 1
  | .d2 => some 2
  | .d3 => some 3
  | .d4 => some 4
  | .d5 => some 5
  | .d6 => some 6
  | .d7 => some 7
  | .d8 => some 8
  | .d9 => some 9
  | _ => none

/-- Two cells with the same digit and the same note flags are equal. -/
theorem cellEqOfParts {a b : Cell} (h1 : a.digit = b.digit)
    (h2 : ∀ j, a.notes j = b.notes j) : a = b := by
  cases a with | mk d1 n1 =>
  cases b with | mk d2 n2 =>
  simp only [Cell.mk.injEq]
  exact ⟨h1, funext fun j => h2 j⟩

/-- Two boards with the same cells and the same selection are equal. -/
theorem gameboardEqOfParts {g1 g2 : Gameboard}
    (h1 : ∀ r c, g1.cells r c = g2.cells r c)
    (h2 : g1.selected_cell = g2.selected_cell) : g1 = g2 := by
  cases g1 with | mk c1 s1 =>
  cases g2 with | mk c2 s2 =>
  simp only [Gameboard.mk.injEq]
  exact ⟨funext fun r => funext fun c => h1 r c, h2⟩

/-- C6: for an in-range cell index, set followed by get_digit at the same
index returns some v for nonzero v and none for v = 0, and setting the same
value twice produces the same board as setting it once. -/
theorem set_get_digit_and_set_idem (g : Gameboard) (x y v : Nat)
    (hx : x < 9) (hy : y < 9) :
    (g.set (x, y) v).get_digit (x, y) = (if v = 0 then none else some v) ∧
    (g.set (x, y) v).set (x, y) v = g.set (x, y) v := by
  constructor
  · simp [Gameboard.set, Gameboard.get_digit]
  · refine gameboardEqOfParts (fun r c => ?_) rfl
    by_cases h : r = y ∧ c = x <;> simp [Gameboard.set, h]

/-- C6 witness: instantiated at the empty board, cell (2,3), value 5. -/
theorem set_get_digit_and_set_idem_witness :
    (Gameboard.new.set (2, 3) 5).get_digit (2, 3) = (if 5 = 0 then none else some 5) ∧
    (Gameboard.new.set (2, 3) 5).set (2, 3) 5 = Gameboard.new.set (2, 3) 5 :=
  set_get_digit_and_set_idem Gameboard.new 2 3 5 (by decide) (by decide)

/-- C7: for an in-range cell index and a digit 1..9, toggling the same note
twice restores the board exactly. -/
theorem note_note_involution (g : Gameboard) (x y v : Nat)
    (hx : x < 9) (hy : y < 9) (hv1 : 1 ≤ v) (hv9 : v ≤ 9) :
    (g.note (x, y) v).note (x, y) v = g := by
  refine gameboardEqOfParts (fun r c => ?_) rfl
  by_cases h : r = y ∧ c = x
  · refine cellEqOfParts ?_ (fun j => ?_)
    · simp [Gameboard.note, h]
    · by_cases hj : j = v - 1 <;> simp [Gameboard.note, h, hj]
  · simp [Gameboard.note, h]

/-- C7 witness: instantiated at the empty board, cell (0,0), value 5. -/
theorem note_note_involution_witness :
    (Gameboard.new.note (0, 0) 5).note (0, 0) 5 = Gameboard.new :=
  note_note_involution Gameboard.new 0 0 5 (by decide) (by decide) (by decide) (by decide)

/-- C8: set only writes the digit of the addressed cell (its notes and all
other cells are untouched), and note with a digit 1..9 only flips note flag
val - 1 of the addressed cell (its digit, its other notes and all other
cells are untouched). -/
theorem set_and_note_frame (g : Gameboard) (x y v : Nat)
    (hx : x < 9) (hy : y < 9) :
    (((g.set (x, y) v).cells y x).digit = v ∧
     (∀ j, ((g.set (x, y) v).cells y x).notes j = (g.cells y x).notes j) ∧
     (∀ r c, ¬(r = y ∧ c = x) → (g.set (x, y) v).cells r c = g.cells r c)) ∧
    (1 ≤ v → v ≤ 9 →
     (((g.note (x, y) v).cells y x).notes (v - 1) = !((g.cells y x).notes (v - 1)) ∧
      (∀ j, j ≠ v - 1 → ((g.note (x, y) v).cells y x).notes j = (g.cells y x).notes j) ∧
      ((g.note (x, y) v).cells y x).digit = (g.cells y x).digit ∧
      (∀ r c, ¬(r = y ∧ c = x) → (g.note (x, y) v).cells r c = g.cells r c))) := by
  refine ⟨⟨?_, fun j => ?_, fun r c h => ?_⟩,
          fun hv1 hv9 => ⟨?_, fun j hj => ?_, ?_, fun r c h => ?_⟩⟩ <;>
    simp [Gameboard.set, Gameboard.note, *]

/-- C8 witness: instantiated at the empty board, cell (1,2), value 7. -/
theorem set_and_note_frame_witness :
    (((Gameboard.new.set (1, 2) 7).cells 2 1).digit = 7 ∧
     ((Gameboard.new.note (1, 2) 7).cells 2 1).digit = (Gameboard.new.cells 2 1).digit) := by
  have h := set_and_note_frame Gameboard.new 1 2 7 (by decide) (by decide)
  exact ⟨h.1.1, (h.2 (by decide) (by decide)).2.2.1⟩

/-- C9: with in-range indices and (for note) value 1..9, every checked board
operation succeeds: no panic branch of the Rust indexing is reachable, and
the note index val - 1 stays in 0..8. -/
theorem board_ops_total (g : Gameboard) (x y v : Nat)
    (hx : x < 9) (hy : y < 9) (hv1 : 1 ≤ v) (hv9 : v ≤ 9) :
    (g.get_digitChk (x, y)).isSome ∧ (g.get_notesChk (x, y)).isSome ∧
    (g.setChk (x, y) v).isSome ∧ (g.noteChk (x, y) v).isSome ∧ v - 1 ≤ 8 := by
  refine ⟨?_, ?_, ?_, ?_, by omega⟩ <;>
    simp [Gameboard.get_digitChk, Gameboard.get_notesChk, Gameboard.setChk,
      Gameboard.noteChk, hx, hy, hv1] <;> omega

/-- C9 witness: instantiated at the empty board, cell (8,0), value 9. -/
theorem board_ops_total_witness :
    (Gameboard.new.get_digitChk (8, 0)).isSome ∧
    (Gameboard.new.noteChk (8, 0) 9).isSome := by
  have h := board_ops_total Gameboard.new 8 0 9 (by decide) (by decide)
    (by decide) (by decide)
  exact ⟨h.1, h.2.2.2.1⟩

/-- C10: pressing left shift sets the modifier, releasing it clears it, and
pressing or releasing any other key leaves the modifier unchanged. -/
theorem shift_flag_lshift_only :
    (∀ ctrl : GameboardController,
      (ctrl.handle_event (.press (.keyboard .lshift))).shift_pressed = true) ∧
    (∀ ctrl : GameboardController,
      (ctrl.handle_event (.release (.keyboard .lshift))).shift_pressed = false) ∧
    (∀ (ctrl : GameboardController) (k : Key), k ≠ .lshift →
      (ctrl.handle_event (.press (.keyboard k))).shift_pressed = ctrl.shift_pressed) ∧
    (∀ (ctrl : GameboardController) (k : Key), k ≠ .lshift →
      (ctrl.handle_event (.release (.keyboard k))).shift_pressed = ctrl.shift_pressed) := by
  refine ⟨fun ctrl => ?_, fun ctrl => ?_, fun ctrl k hk => ?_, fun ctrl k hk => ?_⟩
  · cases hsel : ctrl.gameboard.selected_cell <;>
      simp [GameboardController.handle_event, hsel]
  · simp [GameboardController.handle_event]
  · cases k <;>
      first
        | exact absurd rfl hk
        | cases hsel : ctrl.gameboard.selected_cell <;>
            cases hsh : ctrl.shift_pressed <;>
            simp [GameboardController.handle_event, hsel, hsh]
  · cases k <;>
      first
        | exact absurd rfl hk
        | simp [GameboardController.handle_event]

/-- C10 witness: a concrete controller; pressing the right shift key leaves
the modifier untouched while pressing left shift raises it. -/
theorem shift_flag_lshift_only_witness :
    ((GameboardController.new Gameboard.new ⟨⟨(56, 56), 400⟩⟩).handle_event
      (.press (.keyboard .rshift))).shift_pressed =
      (GameboardController.new Gameboard.new ⟨⟨(56, 56), 400⟩⟩).shift_pressed ∧
    ((GameboardController.new Gameboard.new ⟨⟨(56, 56), 400⟩⟩).handle_event
      (.press (.keyboard .lshift))).shift_pressed = true := by
  refine ⟨shift_flag_lshift_only.2.2.1 _ Key.rshift (by decide), ?_⟩
  exact shift_flag_lshift_only.1 _

/-- C4: on a key press carrying digit d (1..9): with a selected cell and the
shift modifier down, the controller toggles note d of that cell and the digit
there is unchanged; with the modifier up it writes digit d into that cell;
with no selection the whole controller state is unchanged. -/
theorem digit_key_dispatch (ctrl : GameboardController) (k : Key) (d : Nat)
    (hk : keyToDigit k = some d) :
    (∀ ind, ctrl.gameboard.selected_cell = some ind → ctrl.shift_pressed = true →
      ctrl.handle_event (.press (.keyboard k)) =
        { ctrl with gameboard := ctrl.gameboard.note ind d } ∧
      (ctrl.gameboard.note ind d).get_digit ind = ctrl.gameboard.get_digit ind) ∧
    (∀ ind, ctrl.gameboard.selected_cell = some ind → ctrl.shift_pressed = false →
      ctrl.handle_event (.press (.keyboard k)) =
        { ctrl with gameboard := ctrl.gameboard.set ind d }) ∧
    (ctrl.gameboard.selected_cell = none →
      ctrl.handle_event (.press (.keyboard k)) = ctrl) := by
  cases k <;> simp only [keyToDigit, Option.some.injEq, reduceCtorEq] at hk <;>
    subst hk <;>
    refine ⟨fun ind hsel hsh => ⟨?_, ?_⟩, fun ind hsel hsh => ?_, fun hsel => ?_⟩ <;>
    simp [GameboardController.handle_event, Gameboard.note, Gameboard.get_digit, *]

/-- A concrete controller used by witnesses: empty board with cell (0,0)
selected, default view geometry, shift held. -/
def witCtrl : GameboardController :=
  { gameboard := { Gameboard.new with selected_cell := some (0, 0) },
    gameboard_view := ⟨⟨(56, 56), 400⟩⟩,
    cursor_pos := (0, 0),
    shift_pressed := true }

/-- C4 witness: with cell (0,0) selected and shift held, pressing the 5 key
toggles note 5 of cell (0,0). -/
theorem digit_key_dispatch_witness :
    witCtrl.handle_event (.press (.keyboard .d5)) =
      { witCtrl with gameboard := witCtrl.gameboard.note (0, 0) 5 } ∧
    (witCtrl.gameboard.note (0, 0) 5).get_notes (0, 0) 4 = true :=
  ⟨((digit_key_dispatch witCtrl .d5 5 rfl).1 (0, 0) rfl rfl).1, by decide⟩

/-- C3: a left press with the tracked cursor inside the board rectangle
selects the cell (floor((x - posx) * 9 / size), floor((y - posy) * 9 / size))
(column from x, row from y); a press outside leaves the selection unchanged. -/
theorem press_selects_mapped_cell :
    (∀ ctrl : GameboardController,
      ctrl.gameboard_view.settings.position.1 ≤ ctrl.cursor_pos.1 →
      ctrl.cursor_pos.1 <
        ctrl.gameboard_view.settings.position.1 + ctrl.gameboard_view.settings.size →
      ctrl.gameboard_view.settings.position.2 ≤ ctrl.cursor_pos.2 →
      ctrl.cursor_pos.2 <
        ctrl.gameboard_view.settings.position.2 + ctrl.gameboard_view.settings.size →
      (ctrl.handle_event (.press (.mouse .left))).gameboard.selected_cell =
        some ((⌊(ctrl.cursor_pos.1 - ctrl.gameboard_view.settings.position.1) * 9 /
                  ctrl.gameboard_view.settings.size⌋).toNat,
              (⌊(ctrl.cursor_pos.2 - ctrl.gameboard_view.settings.position.2) * 9 /
                  ctrl.gameboard_view.settings.size⌋).toNat)) ∧
    (∀ ctrl : GameboardController,
      ¬(ctrl.gameboard_view.settings.position.1 ≤ ctrl.cursor_pos.1 ∧
        ctrl.cursor_pos.1 <
          ctrl.gameboard_view.settings.position.1 + ctrl.gameboard_view.settings.size ∧
        ctrl.gameboard_view.settings.position.2 ≤ ctrl.cursor_pos.2 ∧
        ctrl.cursor_pos.2 <
          ctrl.gameboard_view.settings.position.2 + ctrl.gameboard_view.settings.size) →
      (ctrl.handle_event (.press (.mouse .left))).gameboard.selected_cell =
        ctrl.gameboard.selected_cell) := by
  constructor
  · intro ctrl h1 h2 h3 h4
    have a1 : (0 : ℚ) ≤ ctrl.cursor_pos.1 - ctrl.gameboard_view.settings.position.1 :=
      sub_nonneg.mpr h1
    have a2 : ctrl.cursor_pos.1 - ctrl.gameboard_view.settings.position.1 <
        ctrl.gameboard_view.settings.size := by linarith
    have a3 : (0 : ℚ) ≤ ctrl.cursor_pos.2 - ctrl.gameboard_view.settings.position.2 :=
      sub_nonneg.mpr h3
    have a4 : ctrl.cursor_pos.2 - ctrl.gameboard_view.settings.position.2 <
        ctrl.gameboard_view.settings.size := by linarith
    simp [GameboardController.handle_event, a1, a2, a3, a4, div_mul_eq_mul_div]
  · intro ctrl h
    simp only [GameboardController.handle_event]
    split
    · rename_i hcond
      obtain ⟨a1, a2, a3, a4⟩ := hcond
      exact absurd ⟨by linarith, by linarith, by linarith, by linarith⟩ h
    · rfl

/-- A concrete controller used by witnesses: board at (56,56), size 400,
cursor at (206,256), which is 150 across and 200 down inside the board. -/
def witCtrl3 : GameboardController :=
  { gameboard := Gameboard.new,
    gameboard_view := ⟨⟨(56, 56), 400⟩⟩,
    cursor_pos := (206, 256),
    shift_pressed := false }

/-- C3 witness: the press at (206,256) selects cell (3,4). -/
theorem press_selects_mapped_cell_witness :
    (witCtrl3.handle_event (.press (.mouse .left))).gameboard.selected_cell =
      some (3, 4) := by
  have h := press_selects_mapped_cell.1 witCtrl3
    (by norm_num [witCtrl3]) (by norm_num [witCtrl3])
    (by norm_num [witCtrl3]) (by norm_num [witCtrl3])
  rw [h]
  norm_num [witCtrl3]
  decide

/-- The guard of the left-press branch of handle_event: the tracked cursor
lies in the board rectangle. -/
def pressInside (ctrl : GameboardController) : Prop :=
  0 ≤ ctrl.cursor_pos.1 - ctrl.gameboard_view.settings.position.1 ∧
  ctrl.cursor_pos.1 - ctrl.gameboard_view.settings.position.1 <
    ctrl.gameboard_view.settings.size ∧
  0 ≤ ctrl.cursor_pos.2 - ctrl.gameboard_view.settings.position.2 ∧
  ctrl.cursor_pos.2 - ctrl.gameboard_view.settings.position.2 <
    ctrl.gameboard_view.settings.size

instance (ctrl : GameboardController) : Decidable (pressInside ctrl) := by
  unfold pressInside
  exact inferInstance

/-- C5: on a fresh board nothing is selected; an event that is not a left
press inside the board rectangle leaves the selection exactly as it was; a
left press inside the rectangle selects exactly one cell; and once a cell is
selected, every event leaves exactly one cell selected (never back to none). -/
theorem selected_cell_lifecycle :
    Gameboard.new.selected_cell = none ∧
    (∀ (ctrl : GameboardController) (e : Event),
      ¬(e = .press (.mouse .left) ∧ pressInside ctrl) →
      (ctrl.handle_event e).gameboard.selected_cell = ctrl.gameboard.selected_cell) ∧
    (∀ ctrl : GameboardController, pressInside ctrl →
      ∃ p, (ctrl.handle_event (.press (.mouse .left))).gameboard.selected_cell = some p) ∧
    (∀ (ctrl : GameboardController) (e : Event) (p : Nat × Nat),
      ctrl.gameboard.selected_cell = some p →
      ∃ q, (ctrl.handle_event e).gameboard.selected_cell = some q) := by
  have h2 : ∀ (ctrl : GameboardController) (e : Event),
      ¬(e = .press (.mouse .left) ∧ pressInside ctrl) →
      (ctrl.handle_event e).gameboard.selected_cell = ctrl.gameboard.selected_cell := by
    intro ctrl e h
    match e with
    | .mouseCursor p => rfl
    | .press (.mouse .left) =>
        simp only [GameboardController.handle_event]
        split
        · rename_i hcond
          exact absurd ⟨rfl, hcond⟩ h
        · rfl
    | .press (.mouse .right) => rfl
    | .press (.mouse .middle) => rfl
    | .press (.keyboard k) =>
        cases hsel : ctrl.gameboard.selected_cell <;>
          cases hsh : ctrl.shift_pressed <;>
          cases k <;>
          simp [GameboardController.handle_event, Gameboard.note, Gameboard.set,
            hsel, hsh]
    | .release (.mouse b) => rfl
    | .release (.keyboard k) =>
        cases k <;> simp [GameboardController.handle_event]
  have h3 : ∀ ctrl : GameboardController, pressInside ctrl →
      ∃ p, (ctrl.handle_event (.press (.mouse .left))).gameboard.selected_cell
        = some p := by
    intro ctrl h
    obtain ⟨a1, a2, a3, a4⟩ := h
    exact ⟨((⌊(ctrl.cursor_pos.1 - ctrl.gameboard_view.settings.position.1) /
                ctrl.gameboard_view.settings.size * 9⌋).toNat,
            (⌊(ctrl.cursor_pos.2 - ctrl.gameboard_view.settings.position.2) /
                ctrl.gameboard_view.settings.size * 9⌋).toNat),
      by simp [GameboardController.handle_event, a1, a2, a3, a4]⟩
  refine ⟨rfl, h2, h3, fun ctrl e p hp => ?_⟩
  by_cases hval : e = .press (.mouse .left) ∧ pressInside ctrl
  · obtain ⟨he, hin⟩ := hval
    subst he
    exact h3 ctrl hin
  · exact ⟨p, (h2 ctrl e hval).trans hp⟩

/-- C5 witness: with the cursor inside the board, the left press on the fresh
controller selects a cell, and a digit key press afterward keeps it. -/
theorem selected_cell_lifecycle_witness :
    (∃ p, (witCtrl3.handle_event (.press (.mouse .left))).gameboard.selected_cell
      = some p) ∧
    ((witCtrl3.handle_event (.press (.keyboard .d5))).gameboard.selected_cell
      = witCtrl3.gameboard.selected_cell) :=
  ⟨selected_cell_lifecycle.2.2.1 witCtrl3 (by norm_num [pressInside, witCtrl3]),
   selected_cell_lifecycle.2.1 witCtrl3 _ (by simp)⟩

/-- A scan over a digit list succeeds exactly when no listed digit is in the
initial seen set, the (row-pass only) zero rejection never fires, and the
list has no duplicate. -/
theorem scanDigits_eq_true_iff (rz : Bool) (seen l : List Nat) :
    scanDigits rz seen l = true ↔
      (∀ d ∈ l, ¬(rz = true ∧ d = 0) ∧ d ∉ seen) ∧ l.Nodup := by
  induction l generalizing seen with
  | nil => simp [scanDigits]
  | cons d rest ih =>
      by_cases hcond : (rz = true ∧ d = 0) ∨ d ∈ seen
      · rw [scanDigits, if_pos hcond]
        simp only [Bool.false_eq_true, false_iff]
        rintro ⟨hall, -⟩
        have hd := hall d (List.mem_cons_self d rest)
        rcases hcond with h0 | hs
        · exact hd.1 h0
        · exact hd.2 hs
      · rw [scanDigits, if_neg hcond, ih]
        have hc1 : ¬(rz = true ∧ d = 0) := fun h => hcond (Or.inl h)
        have hc2 : d ∉ seen := fun h => hcond (Or.inr h)
        simp only [List.forall_mem_cons, List.nodup_cons]
        simp only [List.mem_cons, not_or]
        constructor
        · rintro ⟨h1, h2⟩
          exact ⟨⟨⟨hc1, hc2⟩,
                  fun e he => ⟨(h1 e he).1, ((h1 e he).2).2⟩⟩,
                 fun hd => ((h1 d hd).2).1 rfl, h2⟩
        · rintro ⟨⟨hd, h1⟩, hdr, h2⟩
          exact ⟨fun e he => ⟨(h1 e he).1, fun heq => hdr (heq ▸ he), (h1 e he).2⟩, h2⟩

/-- The mapped range is duplicate-free exactly when the digit function is
injective below n. -/
theorem nodup_map_range_iff (f : Nat → Nat) (n : Nat) :
    ((List.range n).map f).Nodup ↔ ∀ i < n, ∀ j < n, i ≠ j → f i ≠ f j := by
  rw [List.nodup_map_iff_inj_on (List.nodup_range n)]
  simp only [List.mem_range]
  constructor
  · intro h i hi j hj hij hf
    exact hij (h i hi j hj hf)
  · intro h i hi j hj hf
    by_contra hne
    exact h i hi j hj hne hf

/-- One group pass of check over the digits at positions 0..n-1. -/
theorem scanDigits_range_map (rz : Bool) (f : Nat → Nat) (n : Nat) :
    scanDigits rz [] ((List.range n).map f) = true ↔
      (∀ i < n, ¬(rz = true ∧ f i = 0)) ∧ (∀ i < n, ∀ j < n, i ≠ j → f i ≠ f j) := by
  rw [scanDigits_eq_true_iff, nodup_map_range_iff]
  simp only [List.mem_map, List.mem_range, List.not_mem_nil, not_false_iff, and_true]
  constructor
  · intro ⟨h1, h2⟩
    exact ⟨fun i hi => h1 (f i) ⟨i, hi, rfl⟩, h2⟩
  · rintro ⟨h1, h2⟩
    exact ⟨fun d ⟨i, hi, hfi⟩ => hfi ▸ h1 i hi, h2⟩

/-- check succeeds exactly when every row is zero-free and duplicate-free and
every column and every 3x3 section is duplicate-free. -/
theorem check_true_characterization (ctrl : GameboardController) :
    ctrl.check = true ↔
      ((∀ r < 9, ∀ i < 9, (ctrl.gameboard.cells r i).digit ≠ 0) ∧
       (∀ r < 9, ∀ i < 9, ∀ j < 9, i ≠ j →
         (ctrl.gameboard.cells r i).digit ≠ (ctrl.gameboard.cells r j).digit)) ∧
      (∀ c < 9, ∀ i < 9, ∀ j < 9, i ≠ j →
        (ctrl.gameboard.cells i c).digit ≠ (ctrl.gameboard.cells j c).digit) ∧
      (∀ s < 9, ∀ i < 9, ∀ j < 9, i ≠ j →
        (ctrl.gameboard.cells (s / 3 * 3 + i / 3) (s % 3 * 3 + i % 3)).digit ≠
        (ctrl.gameboard.cells (s / 3 * 3 + j / 3) (s % 3 * 3 + j % 3)).digit) := by
  simp only [GameboardController.check, Bool.and_eq_true, List.all_eq_true,
    List.mem_range, scanDigits_range_map, eq_self_iff_true, true_and,
    Bool.false_eq_true, false_and, not_false_iff, implies_true]
  constructor
  · rintro ⟨⟨hrow, hcol⟩, hsect⟩
    exact ⟨⟨fun r hr => (hrow r hr).1, fun r hr => (hrow r hr).2⟩, hcol, hsect⟩
  · rintro ⟨⟨h0, hrow⟩, hcol, hsect⟩
    exact ⟨⟨fun r hr => ⟨h0 r hr, hrow r hr⟩, hcol⟩, hsect⟩

/-- Spec-side group predicate (formulation A of the claim): no two distinct
cells of the group share a nonzero digit. -/
def noSharedNonzero (f : Nat → Nat) : Prop :=
  ∀ i < 9, ∀ j < 9, i ≠ j → f i ≠ 0 → f i ≠ f j

/-- Spec-side group predicate (formulation B of the claim): the group is
duplicate-free. -/
def dupFree (f : Nat → Nat) : Prop :=
  ∀ i < 9, ∀ j < 9, i ≠ j → f i ≠ f j

/-- The digits of row r. -/
def rowGroup (g : Gameboard) (r : Nat) : Nat → Nat := fun c => (g.cells r c).digit

/-- The digits of column c. -/
def colGroup (g : Gameboard) (c : Nat) : Nat → Nat := fun r => (g.cells r c).digit

/-- The digits of 3x3 section s, in the cell order of the source. -/
def sectGroup (g : Gameboard) (s : Nat) : Nat → Nat := fun i =>
  (g.cells (s / 3 * 3 + i / 3) (s % 3 * 3 + i % 3)).digit

/-- Spec formulation A: every cell of every row holds a nonzero digit and no
two cells of a row, column or section share a nonzero digit. -/
def solvedSpecA (g : Gameboard) : Prop :=
  (∀ r < 9, ∀ c < 9, (g.cells r c).digit ≠ 0) ∧
  (∀ r < 9, noSharedNonzero (rowGroup g r)) ∧
  (∀ c < 9, noSharedNonzero (colGroup g c)) ∧
  (∀ s < 9, noSharedNonzero (sectGroup g s))

/-- Spec formulation B: the board is fully filled with digits 1..9 and all 27
groups are duplicate-free. -/
def solvedSpecB (g : Gameboard) : Prop :=
  (∀ r < 9, ∀ c < 9, 1 ≤ (g.cells r c).digit ∧ (g.cells r c).digit ≤ 9) ∧
  (∀ r < 9, dupFree (rowGroup g r)) ∧
  (∀ c < 9, dupFree (colGroup g c)) ∧
  (∀ s < 9, dupFree (sectGroup g s))

instance (f : Nat → Nat) : Decidable (dupFree f) := by
  unfold dupFree
  exact inferInstance

instance (g : Gameboard) : Decidable (solvedSpecB g) := by
  unfold solvedSpecB
  exact inferInstance

/-- C1: check returns true exactly for boards satisfying formulation A, and
(under the data-model invariant that digits stay at most 9) exactly for
boards fully filled with digits 1..9 that are duplicate-free in all 27
groups. -/
theorem check_iff_solved (ctrl : GameboardController) :
    (ctrl.check = true ↔ solvedSpecA ctrl.gameboard) ∧
    ((∀ r < 9, ∀ c < 9, (ctrl.gameboard.cells r c).digit ≤ 9) →
      (ctrl.check = true ↔ solvedSpecB ctrl.gameboard)) := by
  refine ⟨?_, fun hle => ?_⟩
  · rw [check_true_characterization]
    unfold solvedSpecA noSharedNonzero rowGroup colGroup sectGroup
    constructor
    · rintro ⟨⟨h0, hrow⟩, hcol, hsect⟩
      exact ⟨h0,
             fun r hr i hi j hj hij _ => hrow r hr i hi j hj hij,
             fun c hc i hi j hj hij _ => hcol c hc i hi j hj hij,
             fun s hs i hi j hj hij _ => hsect s hs i hi j hj hij⟩
    · rintro ⟨h0, hrow, hcol, hsect⟩
      refine ⟨⟨h0, fun r hr i hi j hj hij =>
                hrow r hr i hi j hj hij (h0 r hr i hi)⟩,
              fun c hc i hi j hj hij => hcol c hc i hi j hj hij (h0 i hi c hc),
              fun s hs i hi j hj hij =>
                hsect s hs i hi j hj hij (h0 _ ?_ _ ?_)⟩ <;> omega
  · rw [check_true_characterization]
    unfold solvedSpecB dupFree rowGroup colGroup sectGroup
    constructor
    · rintro ⟨⟨h0, hrow⟩, hcol, hsect⟩
      exact ⟨fun r hr c hc =>
               ⟨Nat.one_le_iff_ne_zero.mpr (h0 r hr c hc), hle r hr c hc⟩,
             hrow, hcol, hsect⟩
    · rintro ⟨h19, hrow, hcol, hsect⟩
      exact ⟨⟨fun r hr c hc => Nat.one_le_iff_ne_zero.mp (h19 r hr c hc).1, hrow⟩,
             hcol, hsect⟩

/-- A fully solved board: the standard shifted pattern. -/
def solvedBoard : Gameboard :=
  { cells := fun r c =>
      { digit := (3 * (r % 3) + r / 3 + c) % 9 + 1, notes := fun _ => false },
    selected_cell := none }

/-- A controller holding the solved board. -/
def solvedCtrl : GameboardController :=
  { gameboard := solvedBoard,
    gameboard_view := ⟨⟨(56, 56), 400⟩⟩,
    cursor_pos := (0, 0),
    shift_pressed := false }

/-- C1 witness: the solved pattern satisfies formulation B, hence check
accepts it. -/
theorem check_iff_solved_witness : solvedCtrl.check = true :=
  ((check_iff_solved solvedCtrl).2 (by decide)).mpr (by decide)

/-- C2: a board with a 0 in any in-range cell is rejected by check. -/
theorem zero_cell_check_false (ctrl : GameboardController) (r c : Nat)
    (hr : r < 9) (hc : c < 9) (h0 : (ctrl.gameboard.cells r c).digit = 0) :
    ctrl.check = false := by
  by_contra h
  rw [Bool.not_eq_false] at h
  exact ((check_true_characterization ctrl).mp h).1.1 r hr c hc h0

/-- A fresh controller on the empty board. -/
def emptyCtrl : GameboardController :=
  GameboardController.new Gameboard.new ⟨⟨(56, 56), 400⟩⟩

/-- C2 witness: the empty board (cell (0,0) holds 0) fails check. -/
theorem zero_cell_check_false_witness : emptyCtrl.check = false :=
  zero_cell_check_false emptyCtrl 0 0 (by decide) (by decide) (by decide)
